import Mathlib

/-!
Verification development for the WhatsApp sales auto-responder.

This file gives a shallow embedding of the message-coalescing
auto-responder core and the transport helpers it relies on, translated
from the JavaScript sources (autoResponder.js, the Gemini client, the
WhatsApp client helpers and the route layer), and proves the testable
properties stated about them.

Modelling conventions:
- Pure string and list manipulation is translated function by function.
- Asynchronous side effects (transport sends, status writes, model
  calls) are made explicit as an event trace.
- The drain loop of processChatQueue is embedded over the successive
  buffer snapshots: each element of the batches list is the whole
  buffer content found at one splice point, and the Language-Responder
  outcome of the k-th call is given by an oracle function.
- Thrown JavaScript exceptions in the typing probe are modelled with
  Option, none standing for a throw that the surrounding try catches.
-/

namespace WhatsappSalesman

/-- Embeds normalizeNumber from autoResponder.js: String(value).replace
keeps only the decimal digit characters of the input. -/
def normalizeNumber (value : String) : String :=
  String.mk (value.toList.filter Char.isDigit)

/-- Embeds the JavaScript expression s.slice(-9): the last nine
characters, or the whole string when it is shorter than nine characters
(the negative start index clamps to zero). -/
def sliceLast9 (s : String) : String :=
  String.mk (s.toList.drop (s.toList.length - 9))

/-- Contact row as selected by findContactByNumber: rowid,
cleanContactNumber and conversation_started. -/
structure ContactRow where
  rowid : Nat
  cleanContactNumber : String
  conversation_started : String
deriving Repr, DecidableEq

/-- Status constant STATUS.ACTIVE from config.js. -/
def STATUS_ACTIVE : String := "active"

/-- Status constant STATUS.PAUSED from config.js. -/
def STATUS_PAUSED : String := "paused"

/-- Embeds findContactByNumber from autoResponder.js: first a full
match of the normalized stored number against the given number, then,
only when the given number has at least nine characters, a match on the
last nine characters. -/
def findContactByNumber (rows : List ContactRow) (number : String) : Option ContactRow :=
  match rows.find? (fun row => normalizeNumber row.cleanContactNumber == number) with
  | some row => some row
  | none =>
      if 9 ≤ number.length then
        rows.find? (fun row =>
          sliceLast9 (normalizeNumber row.cleanContactNumber) == sliceLast9 number)
      else
        none

/-- Embeds isActiveStatus from autoResponder.js. -/
def isActiveStatus (status : String) : Bool :=
  status == STATUS_ACTIVE || status == "started"

/-- Inbound transport message, with the fields handleIncomingMessage
reads: fromMe, from, body, hasMedia and type. -/
structure InMessage where
  fromMe : Bool
  msgFrom : String
  body : String
  hasMedia : Bool
  mtype : String
deriving Repr, DecidableEq

/-- Helper for the JavaScript String.includes test: does the pattern
occur as a contiguous run inside the character list. -/
def charsContain : List Char → List Char → Bool
  | [], pat => pat.isEmpty
  | c :: rest, pat => pat.isPrefixOf (c :: rest) || charsContain rest pat

/-- Embeds the JavaScript expression s.includes(pat). -/
def jsIncludes (s pat : String) : Bool :=
  charsContain s.toList pat.toList

/-- Embeds the JavaScript String.toLowerCase, modelled as a per
character lowercase map over the character list. -/
def jsToLower (s : String) : String :=
  String.mk (s.toList.map Char.toLower)

/-- Embeds the JavaScript String.startsWith test, structurally over
the character lists. -/
def jsStartsWith (s pre : String) : Bool :=
  pre.toList.isPrefixOf s.toList

/-- Embeds the JavaScript String.trim: leading and trailing whitespace
removed. Defined structurally over the character list so that concrete
inputs evaluate. -/
def jsTrim (s : String) : String :=
  String.mk (((s.toList.dropWhile Char.isWhitespace).reverse.dropWhile
    Char.isWhitespace).reverse)

/-- Embeds the content extraction of handleIncomingMessage: the trimmed
body when non-empty, otherwise a synthetic media placeholder when the
message carries media, otherwise the empty string. -/
def extractContent (m : InMessage) : String :=
  let body := jsTrim m.body
  if body ≠ "" then body
  else if m.hasMedia then
    "User sent media: " ++ (if m.mtype ≠ "" then m.mtype else "media")
  else ""

/-- In-flight routing map of the core: chat identifier to buffered
content strings, in insertion order as a JavaScript Map iterates. -/
abbrev Flight := List (String × List String)

/-- Reads the buffer of one chat from the in-flight map. -/
def lookupEntry (flight : Flight) (chatId : String) : Option (List String) :=
  (flight.find? (fun p => p.1 == chatId)).map (fun p => p.2)

/-- Replaces the buffer of one chat in the in-flight map, keeping its
position, as Map.set does on an existing key. -/
def updateEntry (flight : Flight) (chatId : String) (buf : List String) : Flight :=
  flight.map (fun p => if p.1 == chatId then (p.1, buf) else p)

/-- Observable side effects of the core and the transport helpers. -/
inductive Event where
  | modelCall (content : String)
  | sendText (chatId text : String)
  | sendMediaDir (chatId : String)
  | sendMediaFile (chatId filename : String)
  | statusWrite (rowId : Nat) (status : String)
  | react (messageId emoji : String)
  | markSeen (chatId : String)
deriving Repr, DecidableEq

/-- Embeds the admission path of handleIncomingMessage from
autoResponder.js. The resolved sender number is passed explicitly
(resolveSenderNumber consults the transport). Returns the updated
in-flight map and the events emitted; the admission path itself sends
nothing and writes no status, so its event list records exactly that. -/
def handleIncomingMessage (rows : List ContactRow) (resolved : String) (m : InMessage)
    (flight : Flight) : Flight × List Event :=
  if m.fromMe then (flight, [])
  else if jsIncludes m.msgFrom "@g.us" then (flight, [])
  else if resolved == "" then (flight, [])
  else
    match findContactByNumber rows resolved with
    | none => (flight, [])
    | some contact =>
        if !(isActiveStatus contact.conversation_started) then (flight, [])
        else
          let content := extractContent m
          if content == "" then (flight, [])
          else
            let chatId := m.msgFrom
            if chatId == "" then (flight, [])
            else
              match lookupEntry flight chatId with
              | some buf => (updateEntry flight chatId (buf ++ [content]), [])
              | none => (flight ++ [(chatId, [content])], [])

/-- Normalised Language-Responder outcome as generateGeminiResponse
returns it: action and reply are always strings, media and ack are
absent on the invalid-response and invalid-action returns. -/
structure GeminiResult where
  action : String
  reply : String
  media : Option String
  ack : Option String
deriving Repr, DecidableEq

/-- Fields of the JSON object extracted from the raw model text. A
field is none when the key is absent, not a string (for reply, media,
ack) or falsy (for action). -/
structure ParsedJson where
  action : Option String
  reply : Option String
  media : Option String
  ack : Option String
deriving Repr, DecidableEq

/-- Pause outcome returned by generateGeminiResponse on an
unclassifiable response or an invalid action value. -/
def pausedResult : GeminiResult :=
  { action := "pause", reply := "", media := none, ack := none }

/-- Embeds the response-normalisation tail of generateGeminiResponse
from the Gemini client: a missing parse or missing action pauses, the
action is lowercased and checked against reply, pause and ack, an
invalid media value is replaced by none (the string), and an invalid
ack value is replaced by seen. -/
def classifyResponse (parsed : Option ParsedJson) : GeminiResult :=
  match parsed with
  | none => pausedResult
  | some p =>
      match p.action with
      | none => pausedResult
      | some rawAction =>
          let action := jsToLower rawAction
          let reply := p.reply.getD ""
          let media := (p.media.map jsToLower).getD "none"
          let ack := (p.ack.map jsToLower).getD "seen"
          if action ∉ (["reply", "pause", "ack"] : List String) then pausedResult
          else if media ∉ (["include", "none"] : List String) then
            { action := action, reply := reply, media := some "none", ack := some ack }
          else if ack ∉ (["seen", "thumbs_up"] : List String) then
            { action := action, reply := reply, media := some media, ack := some "seen" }
          else
            { action := action, reply := reply, media := some media, ack := some ack }

/-- Embeds the guard of the reply branch in processChatQueue: the
action is reply and the reply text is truthy or the media field is
exactly include. -/
def shouldReply (r : GeminiResult) : Bool :=
  r.action == "reply" && (r.reply != "" || r.media == some "include")

/-- Embeds the JavaScript Array.join with a separator. -/
def joinStrings (sep : String) : List String → String
  | [] => ""
  | [s] => s
  | s :: b :: t => s ++ sep ++ joinStrings sep (b :: t)

/-- Embeds batch.filter(Boolean).join of processChatQueue: empty
strings are dropped, the rest joined by a newline. -/
def joinContent (batch : List String) : String :=
  joinStrings "\n" (batch.filter (fun s => s != ""))

/-- Embeds the while loop of processChatQueue over the successive
buffer snapshots: each element of batches is the whole buffer content
removed by one splice (messages arriving during a model call form the
next snapshot), and oracle k is the normalised result of the k-th
Language-Responder call. Returns the emitted events and the snapshots
left unprocessed when the loop exits. -/
def drainLoop (rowId : Nat) (chatId : String) (oracle : Nat → GeminiResult) :
    List (List String) → Nat → List Event × List (List String)
  | [], _ => ([], [])
  | batch :: rest, k =>
      let content := joinContent batch
      if content == "" then drainLoop rowId chatId oracle rest k
      else
        let r := oracle k
        if shouldReply r then
          let sends :=
            (if r.reply != "" then [Event.sendText chatId r.reply] else []) ++
            (if r.media == some "include" then [Event.sendMediaDir chatId] else [])
          let next := drainLoop rowId chatId oracle rest (k + 1)
          (Event.modelCall content :: (sends ++ next.1), next.2)
        else
          ([Event.modelCall content, Event.statusWrite rowId STATUS_PAUSED], rest)

/-- Embeds processChatQueue including the re-entrancy guard on the
processing flag: a call while processing is set returns at once. -/
def processChatQueue (rowId : Nat) (chatId : String) (processing : Bool)
    (batches : List (List String)) (oracle : Nat → GeminiResult) :
    List Event × List (List String) :=
  if processing then ([], batches) else drainLoop rowId chatId oracle batches 0

/-- Contents of the Language-Responder calls recorded in a trace. -/
def modelCallContents (events : List Event) : List String :=
  events.filterMap (fun e =>
    match e with
    | Event.modelCall c => some c
    | _ => none)

/-- Typing wait ceiling from autoResponder.js, in milliseconds. -/
def TYPING_WAIT_MS : Nat := 4 * 60 * 1000

/-- Typing poll interval from autoResponder.js, in milliseconds. -/
def TYPING_POLL_MS : Nat := 15000

/-- Quiet window from autoResponder.js, in milliseconds. -/
def QUIET_WINDOW_MS : Nat := 25000

/-- Embeds the typing wait loop at the top of each drain iteration.
probe k is the outcome of the k-th isChatTyping call, none standing for
a thrown error, which the surrounding try catches before proceeding.
Sleeps are 15 seconds each and probes are instantaneous, so the elapsed
time before the k-th probe is k * TYPING_POLL_MS. Returns the number of
sleeps performed before the iteration proceeds to the splice. -/
def typingWaitFrom (probe : Nat → Option Bool) (k : Nat) : Nat :=
  match probe k with
  | none => k
  | some typing =>
      if typing ∧ k * TYPING_POLL_MS < TYPING_WAIT_MS then typingWaitFrom probe (k + 1)
      else k
termination_by TYPING_WAIT_MS / TYPING_POLL_MS + 1 - k
decreasing_by simp [TYPING_WAIT_MS, TYPING_POLL_MS] at *; omega

/-- Milliseconds spent waiting on the typing probe before one drain
iteration proceeds. -/
def typingWaitMsFor (probe : Nat → Option Bool) : Nat :=
  typingWaitFrom probe 0 * TYPING_POLL_MS

/-- Transport message as normalised inside getUnrepliedMessagesSnapshot:
id (none for a missing identifier), fromMe, body, hasMedia, type and
numeric timestamp. -/
structure WMessage where
  id : Option String
  fromMe : Bool
  body : String
  hasMedia : Bool
  mtype : String
  timestamp : Int
deriving Repr, DecidableEq

/-- Message types that formatMessageLine and getMessageContent render
as a media tag even when the message carries no media payload. -/
def mediaTypes : List String :=
  ["image", "video", "audio", "ptt", "document", "sticker", "album",
   "location", "vcard", "multi_vcard"]

/-- Embeds formatMessageLine from the server module (the one defining
getUnrepliedMessagesSnapshot): a me or them line for a non-blank body;
for a blank body, a bracketed media tag when the message carries media
or its type is in the media type list, a bracketed call tag for a call
log, and nothing otherwise. -/
def formatMessageLine (m : WMessage) : Option String :=
  let body := jsTrim m.body
  if body == "" then
    if m.hasMedia || mediaTypes.contains m.mtype then
      let mediaType := if m.mtype ≠ "" then m.mtype else "media"
      let label := "media:" ++ mediaType
      some ((if m.fromMe then "me: [" else "them: [") ++ label ++ "]")
    else if m.mtype == "call_log" then
      some (if m.fromMe then "me: [call:log]" else "them: [call:log]")
    else none
  else
    some ((if m.fromMe then "me: " else "them: ") ++ body)

/-- Embeds buildCleanChatlog from the server module: the non-null
formatMessageLine lines joined by newlines. -/
def buildCleanChatlog (messages : List WMessage) : String :=
  joinStrings "\n" (messages.filterMap formatMessageLine)

/-- Embeds getMessageContent from the server module: the trimmed body
when non-blank, a media tag for media messages, a call tag for call
logs, and the empty string otherwise. -/
def getMessageContent (m : WMessage) : String :=
  let body := jsTrim m.body
  if body ≠ "" then body
  else if m.hasMedia || mediaTypes.contains m.mtype then
    "User sent [media:" ++ (if m.mtype ≠ "" then m.mtype else "media") ++ "]"
  else if m.mtype == "call_log" then "User sent [call:log]"
  else ""

/-- Pending entry of the unreplied snapshot as built by
getUnrepliedMessagesSnapshot. -/
structure PendingItem where
  content : String
  messageId : Option String
  hasMedia : Bool
  mtype : String
deriving Repr, DecidableEq

/-- Embeds the index-tracking loop of getUnrepliedMessagesSnapshot:
walks the list remembering the position of the latest outgoing
message seen so far. -/
def lastOutgoingIndexGo : List WMessage → Nat → Option Nat → Option Nat
  | [], _, acc => acc
  | m :: rest, i, acc =>
      lastOutgoingIndexGo rest (i + 1) (if m.fromMe then some i else acc)

/-- Position of the last outgoing message, none when every message is
inbound (the minus-one sentinel of the source). -/
def lastOutgoingIndex (l : List WMessage) : Option Nat :=
  lastOutgoingIndexGo l 0 none

/-- Structural characterisation of the last outgoing position, used to
reason about lastOutgoingIndexGo: position of the last entry with
fromMe set, counted from the front. -/
def lastFromMeIdxAux : List WMessage → Option Nat
  | [] => none
  | m :: rest =>
      match lastFromMeIdxAux rest with
      | some j => some (j + 1)
      | none => if m.fromMe then some 0 else none

/-- Comparison used by the sort in getUnrepliedMessagesSnapshot. -/
def tsLe (a b : WMessage) : Bool :=
  a.timestamp ≤ b.timestamp

/-- Stable ascending sort by timestamp, embedding the JavaScript
Array.sort with the timestamp difference comparator. -/
def sortByTimestamp (l : List WMessage) : List WMessage :=
  l.mergeSort tsLe

/-- Result of getUnrepliedMessagesSnapshot. -/
structure Snapshot where
  history : String
  pending : List PendingItem
deriving Repr, DecidableEq

/-- Pending list built from the messages placed after the last outgoing
message: inbound only, mapped to pending entries, entries with empty
content dropped. -/
def pendingFrom (l : List WMessage) : List PendingItem :=
  ((l.filter (fun m => !m.fromMe)).map (fun m =>
    { content := getMessageContent m
      messageId := m.id
      hasMedia := m.hasMedia
      mtype := m.mtype })).filter (fun p => p.content != "")

/-- Embeds getUnrepliedMessagesSnapshot from the server module, taking
the fetched message list as input: sorts by timestamp, splits at the
last outgoing message, renders the prefix as the clean history and the
suffix as the pending list. -/
def getUnrepliedMessagesSnapshot (messages : List WMessage) : Snapshot :=
  match lastOutgoingIndex (sortByTimestamp messages) with
  | some i =>
      { history := buildCleanChatlog ((sortByTimestamp messages).take (i + 1))
        pending := pendingFrom ((sortByTimestamp messages).drop (i + 1)) }
  | none =>
      { history := buildCleanChatlog []
        pending := pendingFrom (sortByTimestamp messages) }

/-- JavaScript truthiness of an optional string: present and
non-empty. -/
def optTruthy (o : Option String) : Bool :=
  o.getD "" != ""

/-- Payload of the JSON body the manual respond endpoint returns on
success. -/
structure RespondResult where
  responded : Nat
  paused : Bool
  ack : Option String
deriving Repr, DecidableEq

/-- Embeds the decision core of the manual respond route handler: given
the unreplied snapshot and the normalised Language-Responder result of
the single on-demand call, returns the JSON payload and the emitted
events. When the pending list is empty, or joins to an empty string,
the handler returns a zero-reply payload before any model call. -/
def respondNow (rowId : Nat) (chatId : String) (snapshot : Snapshot)
    (result : GeminiResult) : RespondResult × List Event :=
  if snapshot.pending.isEmpty then
    ({ responded := 0, paused := false, ack := none }, [])
  else
    let combinedContent :=
      joinStrings "\n" ((snapshot.pending.map PendingItem.content).filter (fun s => s != ""))
    if combinedContent == "" then
      ({ responded := 0, paused := false, ack := none }, [])
    else
      let callEvents := [Event.modelCall combinedContent]
      if shouldReply result then
        ({ responded := 1, paused := false, ack := none },
          callEvents ++
            (if result.reply != "" then [Event.sendText chatId result.reply] else []) ++
            (if result.media == some "include" then [Event.sendMediaDir chatId] else []))
      else if result.action == "ack" then
        let lastPending := (snapshot.pending.reverse).find? (fun p => optTruthy p.messageId)
        let ackEvents :=
          match lastPending with
          | some p =>
              if result.ack == some "thumbs_up" && optTruthy p.messageId then
                [Event.react (p.messageId.getD "") "👍"]
              else [Event.markSeen chatId]
          | none => [Event.markSeen chatId]
        ({ responded := 0, paused := false,
           ack := some (if optTruthy result.ack then result.ack.getD "" else "seen") },
          callEvents ++ ackEvents)
      else
        ({ responded := 0, paused := true, ack := none },
          callEvents ++ [Event.statusWrite rowId STATUS_PAUSED])

/-- Directory entry as fs.readdirSync with file types returns it. -/
structure DirEntry where
  name : String
  isFile : Bool
deriving Repr, DecidableEq

/-- Embeds the file selection of sendMedia from the WhatsApp client:
regular files only, hidden names dropped, sorted by name. The locale
comparison of the source is modelled as code point order. -/
def eligibleFiles (entries : List DirEntry) : List String :=
  (((entries.filter DirEntry.isFile).map DirEntry.name).filter
    (fun n => !(jsStartsWith n "."))).mergeSort (fun a b => a.toList ≤ b.toList)

/-- Embeds sendMedia from the WhatsApp client: a missing directory
(dir is none) throws, an empty eligible file list returns false with
no send, otherwise every eligible file is sent once in sorted order
and true is returned. -/
def sendMedia (chatId : String) (dir : Option (List DirEntry)) :
    Except String (Bool × List Event) :=
  match dir with
  | none => Except.error "Media directory not found"
  | some entries =>
      let files := eligibleFiles entries
      if files.isEmpty then Except.ok (false, [])
      else Except.ok (true, files.map (fun f => Event.sendMediaFile chatId f))

/-!
Helper lemmas.
-/

/-- A string of length zero is the empty string. -/
lemma string_eq_empty_of_length (s : String) (h : s.length = 0) : s = "" := by
  cases s with
  | mk data =>
      cases data with
      | nil => rfl
      | cons c cs => simp [String.length] at h

/-- Joining a list headed by a non-empty string is non-empty. -/
lemma joinStrings_cons_ne (s : String) (l : List String) (hs : s ≠ "") :
    joinStrings "\n" (s :: l) ≠ "" := by
  cases l with
  | nil => simpa [joinStrings] using hs
  | cons b t =>
      intro h
      have hlen := congrArg String.length h
      simp only [joinStrings, String.length_append, String.length_empty] at hlen
      exact hs (string_eq_empty_of_length s (by omega))

/-- With only non-empty entries, the truthiness filter of the batch
join keeps the whole batch. -/
lemma filter_ne_empty_eq_self (l : List String) (h : ∀ s ∈ l, s ≠ "") :
    l.filter (fun s => s != "") = l := by
  apply List.filter_eq_self.mpr
  intro a ha
  simpa using h a ha

/-- With only non-empty entries, the batch join is the plain newline
join. -/
lemma joinContent_eq_join (l : List String) (h : ∀ s ∈ l, s ≠ "") :
    joinContent l = joinStrings "\n" l := by
  simp [joinContent, filter_ne_empty_eq_self l h]

/-- The sends of a reply branch contain no model call. -/
lemma modelCallContents_sends (chatId text : String) (c1 c2 : Bool) :
    modelCallContents ((if c1 then [Event.sendText chatId text] else []) ++
      (if c2 then [Event.sendMediaDir chatId] else [])) = [] := by
  cases c1 <;> cases c2 <;> simp [modelCallContents]

/-- Model calls of an event concatenation. -/
lemma modelCallContents_append (a b : List Event) :
    modelCallContents (a ++ b) = modelCallContents a ++ modelCallContents b := by
  simp [modelCallContents]

/-- Looking up a chat after its buffer was replaced returns the new
buffer, provided the chat was present. -/
lemma lookupEntry_updateEntry (flight : Flight) (chatId : String)
    (buf newBuf : List String) (h : lookupEntry flight chatId = some buf) :
    lookupEntry (updateEntry flight chatId newBuf) chatId = some newBuf := by
  induction flight with
  | nil => simp [lookupEntry] at h
  | cons p rest ih =>
      by_cases hp : (p.1 == chatId) = true
      · simp [lookupEntry, updateEntry, List.find?, hp]
      · have h' : lookupEntry rest chatId = some buf := by
          simpa [lookupEntry, List.find?, hp] using h
        have := ih h'
        simpa [lookupEntry, updateEntry, List.find?, hp] using this

/-!
Claim theorems.
-/

/-- C7: while the processing flag of a chat inbox entry is set, a
re-entrant invocation of the drain loop is a no-op: it emits no event,
performs no model call, and leaves the buffered batches untouched, so
at most one drain loop is active per chat identifier. -/
theorem drain_reentrant_noop (rowId : Nat) (chatId : String)
    (batches : List (List String)) (oracle : Nat → GeminiResult) :
    processChatQueue rowId chatId true batches oracle = ([], batches) := by
  simp [processChatQueue]

/-- C1: a buffer of messages coalesced within one quiet window is
removed as a single batch and produces exactly one Language-Responder
call, whose content is the newline join of the buffered content
strings in arrival order; moreover admission appends each newly
admitted content at the end of the buffer of its chat, preserving
arrival order. -/
theorem drain_single_batch_one_model_call (rowId : Nat) (chatId : String)
    (oracle : Nat → GeminiResult) (buf : List String)
    (hne : buf ≠ []) (hall : ∀ s ∈ buf, s ≠ "") :
    (modelCallContents (processChatQueue rowId chatId false [buf] oracle).1 =
        [joinStrings "\n" buf] ∧
      (processChatQueue rowId chatId false [buf] oracle).2 = []) ∧
    (∀ rows resolved (m : InMessage) flight old,
      m.fromMe = false →
      jsIncludes m.msgFrom "@g.us" = false →
      resolved ≠ "" →
      (∃ c, findContactByNumber rows resolved = some c ∧
        isActiveStatus c.conversation_started = true) →
      extractContent m ≠ "" →
      m.msgFrom ≠ "" →
      lookupEntry flight m.msgFrom = some old →
      lookupEntry (handleIncomingMessage rows resolved m flight).1 m.msgFrom =
        some (old ++ [extractContent m])) := by
  constructor
  · obtain ⟨s, t, rfl⟩ : ∃ s t, buf = s :: t := by
      cases buf with
      | nil => exact absurd rfl hne
      | cons s t => exact ⟨s, t, rfl⟩
    have hjc : joinContent (s :: t) = joinStrings "\n" (s :: t) :=
      joinContent_eq_join _ hall
    have hjoin : joinStrings "\n" (s :: t) ≠ "" :=
      joinStrings_cons_ne s t (hall s (by simp))
    cases hSR : shouldReply (oracle 0) with
    | true =>
        by_cases h1 : (oracle 0).reply = "" <;>
          by_cases h2 : (oracle 0).media = some "include" <;>
            simp [processChatQueue, drainLoop, hjc, hjoin, hSR, h1, h2,
              modelCallContents]
    | false =>
        simp [processChatQueue, drainLoop, hjc, hjoin, hSR, modelCallContents]
  · intro rows resolved m flight old hfm hg hres hcontact hcontent hfrom hlook
    obtain ⟨c, hc, hact⟩ := hcontact
    have hcontentb : (extractContent m == "") = false := by simpa using hcontent
    have hfromb : (m.msgFrom == "") = false := by simpa using hfrom
    have hresb : (resolved == "") = false := by simpa using hres
    simp only [handleIncomingMessage, hfm, hg, hresb, hc, hact, hcontentb, hfromb,
      Bool.false_eq_true, if_false, Bool.not_true, hlook]
    exact lookupEntry_updateEntry flight m.msgFrom old _ hlook

/-- C1 witness: three messages buffered in one window give one model
call with the newline join as content, and admission appends to the
end of the buffer. -/
theorem drain_single_batch_one_model_call_witness :
    (modelCallContents (processChatQueue 1 "chat" false [["a", "b", "c"]]
        (fun _ => pausedResult)).1 = ["a\nb\nc"] ∧
      (processChatQueue 1 "chat" false [["a", "b", "c"]]
        (fun _ => pausedResult)).2 = []) ∧
    lookupEntry (handleIncomingMessage [⟨1, "0771234567", "active"⟩] "0771234567"
        { fromMe := false, msgFrom := "94771234567@c.us", body := "b",
          hasMedia := false, mtype := "chat" }
        [("94771234567@c.us", ["a"])]).1 "94771234567@c.us" = some ["a", "b"] := by
  have h := drain_single_batch_one_model_call 1 "chat" (fun _ => pausedResult)
    ["a", "b", "c"] (by decide) (by decide)
  refine ⟨h.1, ?_⟩
  exact h.2 [⟨1, "0771234567", "active"⟩] "0771234567"
    { fromMe := false, msgFrom := "94771234567@c.us", body := "b",
      hasMedia := false, mtype := "chat" }
    [("94771234567@c.us", ["a"])] ["a"]
    rfl (by decide) (by decide) ⟨⟨1, "0771234567", "active"⟩, by decide, by decide⟩
    (by decide) (by decide) (by decide)

/-- C2 counterexample: a reply action with empty text and media none
does not advance the loop to the next batch with status unchanged; the
code writes status paused and stops, leaving the second batch
unprocessed. -/
theorem reply_empty_media_none_counterexample :
    (processChatQueue 1 "chat" false [["hi"], ["again"]]
        (fun _ => { action := "reply", reply := "", media := some "none",
                    ack := some "seen" })).1 =
      [Event.modelCall "hi", Event.statusWrite 1 "paused"] ∧
    (processChatQueue 1 "chat" false [["hi"], ["again"]]
        (fun _ => { action := "reply", reply := "", media := some "none",
                    ack := some "seen" })).2 = [["again"]] := by
  constructor <;> rfl

/-- C2 amended: a reply action with empty text and media not equal to
include performs no transport send, but instead of advancing with
status unchanged it writes status paused for the contact and stops the
drain loop, leaving the remaining batches unprocessed. -/
theorem reply_empty_media_none_pauses (rowId : Nat) (chatId : String)
    (oracle : Nat → GeminiResult) (k : Nat) (batch : List String)
    (rest : List (List String)) (hc : joinContent batch ≠ "")
    (ha : (oracle k).action = "reply") (hr : (oracle k).reply = "")
    (hm : (oracle k).media ≠ some "include") :
    drainLoop rowId chatId oracle (batch :: rest) k =
      ([Event.modelCall (joinContent batch),
        Event.statusWrite rowId STATUS_PAUSED], rest) := by
  have hcb : (joinContent batch == "") = false := by simpa using hc
  have hmb : ((oracle k).media == some "include") = false := by simpa using hm
  have hSR : shouldReply (oracle k) = false := by
    simp [shouldReply, ha, hr, hmb]
  simp [drainLoop, hcb, hSR]

/-- C2 amended witness: the pause outcome on a concrete empty reply. -/
theorem reply_empty_media_none_pauses_witness :
    drainLoop 1 "chat"
      (fun _ => { action := "reply", reply := "", media := some "none",
                  ack := some "seen" }) [["hi"]] 0 =
      ([Event.modelCall "hi", Event.statusWrite 1 "paused"], []) :=
  reply_empty_media_none_pauses 1 "chat"
    (fun _ => { action := "reply", reply := "", media := some "none",
                ack := some "seen" }) 0 ["hi"] [] (by decide) rfl rfl (by decide)

/-- C3 counterexample: a Language-Responder response carrying an
explicitly invalid media value is not turned into a pause. The
normaliser keeps the reply action and coerces media to none, and the
drain loop then sends the reply text instead of writing status paused
and stopping. -/
theorem invalid_media_coerced_counterexample :
    classifyResponse (some { action := some "reply",
                             reply := some "Here are the pictures",
                             media := some "banana", ack := none }) =
      { action := "reply", reply := "Here are the pictures",
        media := some "none", ack := some "seen" } ∧
    (processChatQueue 3 "chat" false [["send pics"]]
        (fun _ => { action := "reply", reply := "Here are the pictures",
                    media := some "none", ack := some "seen" })).1 =
      [Event.modelCall "send pics",
       Event.sendText "chat" "Here are the pictures"] := by
  constructor <;> rfl

/-- C3 amended: an explicit pause, a response the Responder cannot
classify (no parse or missing action) and an explicitly invalid action
value all normalise to the pause outcome, and a pause outcome makes
the drain loop write status paused for the contact, send nothing and
stop with the remaining batches unprocessed; an explicitly invalid
media value, however, is coerced to none with the action otherwise
honoured. -/
theorem pause_outcomes_pause_and_stop :
    classifyResponse none = pausedResult ∧
    (∀ p : ParsedJson, p.action = none → classifyResponse (some p) = pausedResult) ∧
    (∀ (p : ParsedJson) (a : String), p.action = some a →
      jsToLower a ∉ (["reply", "pause", "ack"] : List String) →
      classifyResponse (some p) = pausedResult) ∧
    (∀ (p : ParsedJson) (a m : String), p.action = some a → p.media = some m →
      jsToLower a ∈ (["reply", "pause", "ack"] : List String) →
      jsToLower m ∉ (["include", "none"] : List String) →
      classifyResponse (some p) =
        { action := jsToLower a, reply := p.reply.getD "",
          media := some "none", ack := some ((p.ack.map jsToLower).getD "seen") }) ∧
    (∀ (rowId : Nat) (chatId : String) (oracle : Nat → GeminiResult) (k : Nat)
      (batch : List String) (rest : List (List String)),
      joinContent batch ≠ "" → (oracle k).action = "pause" →
      drainLoop rowId chatId oracle (batch :: rest) k =
        ([Event.modelCall (joinContent batch),
          Event.statusWrite rowId STATUS_PAUSED], rest)) := by
  refine ⟨rfl, ?_, ?_, ?_, ?_⟩
  · intro p hp
    simp [classifyResponse, hp]
  · intro p a hp hmem
    simp [classifyResponse, hp, hmem]
  · intro p a m hp hm hmemA hmemM
    simp [classifyResponse, hp, hm, hmemA, hmemM]
  · intro rowId chatId oracle k batch rest hc ha
    have hcb : (joinContent batch == "") = false := by simpa using hc
    have hSR : shouldReply (oracle k) = false := by
      simp [shouldReply, ha]
    simp [drainLoop, hcb, hSR]

/-- C3 witness: the pause outcomes at concrete inputs. -/
theorem pause_outcomes_pause_and_stop_witness :
    classifyResponse (some { action := some "buy now", reply := some "x",
                             media := some "none", ack := none }) = pausedResult ∧
    drainLoop 9 "chat" (fun _ => pausedResult) [["hello"], ["more"]] 0 =
      ([Event.modelCall "hello", Event.statusWrite 9 "paused"], [["more"]]) := by
  constructor
  · exact pause_outcomes_pause_and_stop.2.2.1
      { action := some "buy now", reply := some "x", media := some "none", ack := none }
      "buy now" rfl (by decide)
  · exact pause_outcomes_pause_and_stop.2.2.2.2 9 "chat" (fun _ => pausedResult)
      0 ["hello"] [["more"]] (by decide) rfl

/-- C4: an inbound message whose resolved number matches no contact, or
whose matched contact has a status that is neither active nor started,
is silently dropped by the admission path: the in-flight map is
unchanged (no buffer entry) and no event is emitted (no reply, no
status write, no surfaced error). -/
theorem unknown_or_inactive_contact_dropped (rows : List ContactRow)
    (resolved : String) (m : InMessage) (flight : Flight)
    (h : findContactByNumber rows resolved = none ∨
      ∃ c, findContactByNumber rows resolved = some c ∧
        isActiveStatus c.conversation_started = false) :
    handleIncomingMessage rows resolved m flight = (flight, []) := by
  unfold handleIncomingMessage
  split
  · rfl
  · split
    · rfl
    · split
      · rfl
      · rcases h with h | ⟨c, hc, hact⟩
        · rw [h]
        · rw [hc]
          simp [hact]

/-- C4 witness: a message from a paused contact and one from an unknown
number are both dropped with no state change and no event. -/
theorem unknown_or_inactive_contact_dropped_witness :
    handleIncomingMessage [⟨1, "0771234567", "paused"⟩] "0771234567"
      { fromMe := false, msgFrom := "94771234567@c.us", body := "hello",
        hasMedia := false, mtype := "chat" } [] = ([], []) ∧
    handleIncomingMessage [⟨1, "0771234567", "paused"⟩] "15550000000"
      { fromMe := false, msgFrom := "15550000000@c.us", body := "hello",
        hasMedia := false, mtype := "chat" } [] = ([], []) := by
  constructor
  · exact unknown_or_inactive_contact_dropped _ _ _ _
      (Or.inr ⟨⟨1, "0771234567", "paused"⟩, by decide, by decide⟩)
  · exact unknown_or_inactive_contact_dropped _ _ _ _ (Or.inl (by decide))

/-- C5: contact lookup returns any contact whose normalized number
matches exactly (the first such row), and otherwise falls back to the
last nine digit suffix; in particular the inbound number 94771234567
resolves to a stored contact with cleanContactNumber 0771234567
through the shared nine digit suffix 771234567. -/
theorem contact_lookup_exact_then_suffix :
    (∀ (rows : List ContactRow) (number : String) (r : ContactRow),
      rows.find? (fun row => normalizeNumber row.cleanContactNumber == number) =
        some r →
      findContactByNumber rows number = some r) ∧
    findContactByNumber
      [⟨1, "0112223334", "active"⟩, ⟨2, "0771234567", "active"⟩]
      "94771234567" = some ⟨2, "0771234567", "active"⟩ ∧
    sliceLast9 (normalizeNumber "0771234567") = "771234567" ∧
    sliceLast9 "94771234567" = "771234567" := by
  refine ⟨?_, by decide, by decide, by decide⟩
  intro rows number r h
  simp [findContactByNumber, h]

/-- C5 witness: the exact-match conjunct applied to a concrete store. -/
theorem contact_lookup_exact_then_suffix_witness :
    findContactByNumber [⟨7, "0771234567", "active"⟩] "0771234567" =
      some ⟨7, "0771234567", "active"⟩ :=
  contact_lookup_exact_then_suffix.1 [⟨7, "0771234567", "active"⟩]
    "0771234567" ⟨7, "0771234567", "active"⟩ (by decide)

/-- C10: when the looked-up number has fewer than nine characters and
no stored contact matches it exactly, the lookup returns none; the
nine digit suffix fallback is never attempted for such numbers. -/
theorem short_number_no_suffix_fallback (rows : List ContactRow)
    (number : String) (hlen : number.length < 9)
    (hex : rows.find? (fun row => normalizeNumber row.cleanContactNumber == number) =
      none) :
    findContactByNumber rows number = none := by
  have h9 : ¬ 9 ≤ number.length := by omega
  simp [findContactByNumber, hex, h9]

/-- C10 witness: a seven digit number with no exact match resolves to
none even though a stored number shares its tail. -/
theorem short_number_no_suffix_fallback_witness :
    findContactByNumber [⟨1, "0771234567", "active"⟩] "1234567" = none :=
  short_number_no_suffix_fallback [⟨1, "0771234567", "active"⟩] "1234567"
    (by decide) (by decide)

/-- Once sixteen sleeps have happened, the elapsed time has reached the
four minute ceiling and the wait loop exits at once. -/
lemma typingWaitFrom_ge16 (probe : Nat → Option Bool) (k : Nat) (hk : 16 ≤ k) :
    typingWaitFrom probe k = k := by
  unfold typingWaitFrom
  cases hp : probe k with
  | none => rfl
  | some t =>
      have hcond : ¬ (t = true ∧ k * TYPING_POLL_MS < TYPING_WAIT_MS) := by
        rintro ⟨-, hlt⟩
        simp [TYPING_POLL_MS, TYPING_WAIT_MS] at hlt
        omega
      show (if t = true ∧ k * TYPING_POLL_MS < TYPING_WAIT_MS then
        typingWaitFrom probe (k + 1) else k) = k
      rw [if_neg hcond]

/-- The wait loop performs at most sixteen sleeps in total. -/
lemma typingWaitFrom_le16 (probe : Nat → Option Bool) :
    ∀ n k, 16 ≤ k + n → typingWaitFrom probe k ≤ max 16 k := by
  intro n
  induction n with
  | zero =>
      intro k hk
      rw [typingWaitFrom_ge16 probe k (by omega)]
      exact Nat.le_max_right 16 k
  | succ n ih =>
      intro k hk
      unfold typingWaitFrom
      cases hp : probe k with
      | none => exact Nat.le_max_right 16 k
      | some t =>
          show (if t = true ∧ k * TYPING_POLL_MS < TYPING_WAIT_MS then
            typingWaitFrom probe (k + 1) else k) ≤ max 16 k
          by_cases hcond : t = true ∧ k * TYPING_POLL_MS < TYPING_WAIT_MS
          · rw [if_pos hcond]
            have hklt : k < 16 := by
              have h2 := hcond.2
              simp [TYPING_POLL_MS, TYPING_WAIT_MS] at h2
              omega
            have h3 := ih (k + 1) (by omega)
            have h4 : max 16 (k + 1) = 16 := max_eq_left (by omega)
            rw [h4] at h3
            exact Nat.le_trans h3 (Nat.le_max_left 16 k)
          · rw [if_neg hcond]
            exact Nat.le_max_right 16 k

/-- A probe that always reports typing makes the wait loop sleep
exactly sixteen times. -/
lemma typingWaitFrom_const_true :
    ∀ n k, 16 - k = n → k ≤ 16 → typingWaitFrom (fun _ => some true) k = 16 := by
  intro n
  induction n with
  | zero =>
      intro k h0 hle
      have hk : k = 16 := by omega
      subst hk
      exact typingWaitFrom_ge16 _ 16 (Nat.le_refl 16)
  | succ n ih =>
      intro k h0 hle
      have hklt : k < 16 := by omega
      have hcond : (true = true) ∧ k * TYPING_POLL_MS < TYPING_WAIT_MS := by
        refine ⟨rfl, ?_⟩
        simp [TYPING_POLL_MS, TYPING_WAIT_MS]
        omega
      unfold typingWaitFrom
      show (if (true = true) ∧ k * TYPING_POLL_MS < TYPING_WAIT_MS then
        typingWaitFrom (fun _ => some true) (k + 1) else k) = 16
      rw [if_pos hcond]
      exact ih (k + 1) (by omega) (by omega)

/-- C6: the typing wait before each drain iteration is bounded, so the
iteration always reaches the model call. For every probe behaviour
the wait is at most the four minute ceiling; a probe that reports
typing forever waits exactly the ceiling (polling every fifteen
seconds) and then proceeds regardless; a probe that throws on the
first call, or reports not typing, causes no wait at all. -/
theorem typing_wait_bounded_reaches_model :
    (∀ probe, typingWaitMsFor probe ≤ TYPING_WAIT_MS) ∧
    typingWaitMsFor (fun _ => some true) = TYPING_WAIT_MS ∧
    (∀ probe, probe 0 = none → typingWaitMsFor probe = 0) ∧
    (∀ probe, probe 0 = some false → typingWaitMsFor probe = 0) := by
  refine ⟨?_, ?_, ?_, ?_⟩
  · intro probe
    have h := typingWaitFrom_le16 probe 16 0 (by omega)
    rw [max_eq_left (Nat.zero_le 16)] at h
    show typingWaitFrom probe 0 * TYPING_POLL_MS ≤ TYPING_WAIT_MS
    simp only [TYPING_POLL_MS, TYPING_WAIT_MS]
    omega
  · have h := typingWaitFrom_const_true 16 0 rfl (by omega)
    show typingWaitFrom (fun _ => some true) 0 * TYPING_POLL_MS = TYPING_WAIT_MS
    rw [h]
    decide
  · intro probe h0
    have h : typingWaitFrom probe 0 = 0 := by
      unfold typingWaitFrom
      rw [h0]
    simp [typingWaitMsFor, h]
  · intro probe h0
    have h : typingWaitFrom probe 0 = 0 := by
      unfold typingWaitFrom
      rw [h0]
      show (if (false = true) ∧ 0 * TYPING_POLL_MS < TYPING_WAIT_MS then
        typingWaitFrom probe (0 + 1) else 0) = 0
      simp
    simp [typingWaitMsFor, h]

/-- C6 witness: a throwing probe and a quiet probe cause no wait. -/
theorem typing_wait_bounded_reaches_model_witness :
    typingWaitMsFor (fun _ => none) = 0 ∧
    typingWaitMsFor (fun _ => some false) = 0 :=
  ⟨typing_wait_bounded_reaches_model.2.2.1 (fun _ => none) rfl,
   typing_wait_bounded_reaches_model.2.2.2 (fun _ => some false) rfl⟩

/-- C9: when a reply carries the media include flag, sendMedia streams
every regular non-hidden file of the configured directory exactly once
(the sent list is a permutation of the eligible names), in sorted
filename order, and returns false without sending anything when the
directory holds no eligible file. -/
theorem send_media_streams_sorted (chatId : String) (entries : List DirEntry) :
    (eligibleFiles entries).Perm
      (((entries.filter DirEntry.isFile).map DirEntry.name).filter
        (fun n => !(jsStartsWith n "."))) ∧
    List.Pairwise (fun a b : String => a.toList ≤ b.toList) (eligibleFiles entries) ∧
    (eligibleFiles entries = [] →
      sendMedia chatId (some entries) = Except.ok (false, [])) ∧
    (eligibleFiles entries ≠ [] →
      sendMedia chatId (some entries) =
        Except.ok (true,
          (eligibleFiles entries).map (fun f => Event.sendMediaFile chatId f))) := by
  refine ⟨List.mergeSort_perm _ _, ?_, ?_, ?_⟩
  · have hp := @List.sorted_mergeSort String
      (fun a b : String => a.toList ≤ b.toList)
      (fun a b c hab hbc => by
        simp only [decide_eq_true_eq] at *
        exact le_trans hab hbc)
      (fun a b => by
        simp only [Bool.or_eq_true, decide_eq_true_eq]
        exact le_total a.toList b.toList)
      (((entries.filter DirEntry.isFile).map DirEntry.name).filter
        (fun n => !(jsStartsWith n ".")))
    exact hp.imp (fun h => by simpa using h)
  · intro h
    simp [sendMedia, h]
  · intro h
    have hne : (eligibleFiles entries).isEmpty = false := by
      rcases hl : eligibleFiles entries with _ | ⟨a, t⟩
      · exact absurd hl h
      · rfl
    simp [sendMedia, hne]

/-- C9 witness: a directory with two regular files, one hidden file and
a subdirectory sends exactly the two regular files in order; a
directory with no eligible file returns false and sends nothing. -/
theorem send_media_streams_sorted_witness :
    sendMedia "chat"
      (some [⟨"a.jpg", true⟩, ⟨".hidden", true⟩, ⟨"b.jpg", true⟩, ⟨"sub", false⟩]) =
      Except.ok (true, [Event.sendMediaFile "chat" "a.jpg",
                        Event.sendMediaFile "chat" "b.jpg"]) ∧
    sendMedia "chat" (some [⟨".hidden", true⟩, ⟨"sub", false⟩]) =
      Except.ok (false, []) := by
  have he1 : eligibleFiles
      [⟨"a.jpg", true⟩, ⟨".hidden", true⟩, ⟨"b.jpg", true⟩, ⟨"sub", false⟩] =
      ["a.jpg", "b.jpg"] := by
    show (["a.jpg", "b.jpg"] : List String).mergeSort
      (fun a b => a.toList ≤ b.toList) = ["a.jpg", "b.jpg"]
    exact List.mergeSort_of_sorted (by decide)
  have he2 : eligibleFiles [⟨".hidden", true⟩, ⟨"sub", false⟩] = [] := by
    show ([] : List String).mergeSort (fun a b => a.toList ≤ b.toList) = []
    exact List.mergeSort_of_sorted List.Pairwise.nil
  constructor
  · have h := (send_media_streams_sorted "chat"
      [⟨"a.jpg", true⟩, ⟨".hidden", true⟩, ⟨"b.jpg", true⟩, ⟨"sub", false⟩]).2.2.2
      (by rw [he1]; exact List.cons_ne_nil _ _)
    rw [he1] at h
    exact h
  · exact (send_media_streams_sorted "chat" [⟨".hidden", true⟩, ⟨"sub", false⟩]).2.2.1 he2

/-- The index-tracking loop computes the offset of the last fromMe
entry, or returns the accumulator when there is none. -/
lemma lastOutgoingIndexGo_eq (l : List WMessage) :
    ∀ (i : Nat) (acc : Option Nat),
      lastOutgoingIndexGo l i acc =
        match lastFromMeIdxAux l with
        | some j => some (i + j)
        | none => acc := by
  induction l with
  | nil => intro i acc; rfl
  | cons m rest ih =>
      intro i acc
      show lastOutgoingIndexGo rest (i + 1) (if m.fromMe then some i else acc) = _
      rw [ih]
      cases hr : lastFromMeIdxAux rest with
      | some j =>
          show some (i + 1 + j) = _
          simp only [lastFromMeIdxAux, hr]
          exact congrArg some (by omega)
      | none =>
          cases hm : m.fromMe <;> simp [lastFromMeIdxAux, hr, hm]

/-- The two descriptions of the last outgoing position agree. -/
lemma lastOutgoingIndex_eq_aux (l : List WMessage) :
    lastOutgoingIndex l = lastFromMeIdxAux l := by
  unfold lastOutgoingIndex
  rw [lastOutgoingIndexGo_eq]
  cases h : lastFromMeIdxAux l <;> simp

/-- When there is no outgoing message, every message is inbound. -/
lemma lastFromMeIdxAux_none (l : List WMessage)
    (h : lastFromMeIdxAux l = none) : ∀ m ∈ l, m.fromMe = false := by
  induction l with
  | nil => intro m hm; cases hm
  | cons m rest ih =>
      unfold lastFromMeIdxAux at h
      cases hr : lastFromMeIdxAux rest with
      | some j => rw [hr] at h; cases h
      | none =>
          rw [hr] at h
          cases hm : m.fromMe with
          | true => rw [hm] at h; simp at h
          | false =>
              intro x hx
              rcases List.mem_cons.mp hx with hx | hx
              · rw [hx]; exact hm
              · exact ih hr x hx

/-- The last outgoing position points at an outgoing message, and only
inbound messages follow it. -/
lemma lastFromMeIdxAux_some (l : List WMessage) :
    ∀ j, lastFromMeIdxAux l = some j →
      j < l.length ∧ (∃ m, l[j]? = some m ∧ m.fromMe = true) ∧
        ∀ m ∈ l.drop (j + 1), m.fromMe = false := by
  induction l with
  | nil => intro j h; cases h
  | cons m rest ih =>
      intro j h
      unfold lastFromMeIdxAux at h
      cases hr : lastFromMeIdxAux rest with
      | some j' =>
          rw [hr] at h
          have hj : j = j' + 1 := by
            cases h; rfl
          subst hj
          obtain ⟨hlen, ⟨m', hm', hfm'⟩, hsuffix⟩ := ih j' hr
          refine ⟨by simpa using Nat.succ_lt_succ hlen, ⟨m', ?_, hfm'⟩, ?_⟩
          · simpa using hm'
          · intro x hx
            exact hsuffix x (by simpa using hx)
      | none =>
          rw [hr] at h
          cases hm : m.fromMe with
          | true =>
              rw [hm] at h
              have hj : j = 0 := by
                simp at h
                omega
              subst hj
              refine ⟨by simp, ⟨m, by simp, hm⟩, ?_⟩
              intro x hx
              exact lastFromMeIdxAux_none rest hr x (by simpa using hx)
          | false => rw [hm] at h; simp at h

/-- The sorted message list is pairwise ordered by timestamp. -/
lemma pairwise_sortByTimestamp (l : List WMessage) :
    (sortByTimestamp l).Pairwise (fun a b => tsLe a b = true) := by
  exact List.sorted_mergeSort
    (fun a b c hab hbc => by
      simp only [tsLe, decide_eq_true_eq] at *
      omega)
    (fun a b => by
      simp only [tsLe, Bool.or_eq_true, decide_eq_true_eq]
      omega)
    l

/-- On an all-inbound list the inbound filter of the pending builder is
the identity. -/
lemma pendingFrom_all_inbound (l : List WMessage)
    (h : ∀ m ∈ l, m.fromMe = false) :
    pendingFrom l =
      (l.map (fun m =>
        ({ content := getMessageContent m, messageId := m.id,
           hasMedia := m.hasMedia, mtype := m.mtype } : PendingItem))).filter
        (fun p => p.content != "") := by
  have hf : l.filter (fun m => !m.fromMe) = l :=
    List.filter_eq_self.mpr (fun a ha => by simp [h a ha])
  unfold pendingFrom
  rw [hf]

/-- C8 counterexample: an inbound message that arrives after the last
outgoing message but carries no extractable content (blank body, no
media, a bare notification type) is omitted from the pending snapshot,
so the snapshot does not contain exactly the inbound messages after
the last outgoing one. -/
theorem unreplied_snapshot_counterexample :
    (getUnrepliedMessagesSnapshot
      [{ id := some "a", fromMe := true, body := "hello", hasMedia := false,
         mtype := "chat", timestamp := 1 },
       { id := some "b", fromMe := false, body := "", hasMedia := false,
         mtype := "e2e_notification", timestamp := 2 }]).pending = [] ∧
    lastOutgoingIndex (sortByTimestamp
      [{ id := some "a", fromMe := true, body := "hello", hasMedia := false,
         mtype := "chat", timestamp := 1 },
       { id := some "b", fromMe := false, body := "", hasMedia := false,
         mtype := "e2e_notification", timestamp := 2 }]) = some 0 ∧
    (sortByTimestamp
      [{ id := some "a", fromMe := true, body := "hello", hasMedia := false,
         mtype := "chat", timestamp := 1 },
       { id := some "b", fromMe := false, body := "", hasMedia := false,
         mtype := "e2e_notification", timestamp := 2 }]).drop 1 =
      [{ id := some "b", fromMe := false, body := "", hasMedia := false,
         mtype := "e2e_notification", timestamp := 2 }] := by
  have hs : sortByTimestamp
      [{ id := some "a", fromMe := true, body := "hello", hasMedia := false,
         mtype := "chat", timestamp := 1 },
       { id := some "b", fromMe := false, body := "", hasMedia := false,
         mtype := "e2e_notification", timestamp := 2 }] =
      [{ id := some "a", fromMe := true, body := "hello", hasMedia := false,
         mtype := "chat", timestamp := 1 },
       { id := some "b", fromMe := false, body := "", hasMedia := false,
         mtype := "e2e_notification", timestamp := 2 }] :=
    List.mergeSort_of_sorted (by decide)
  refine ⟨?_, ?_, ?_⟩
  · show (getUnrepliedMessagesSnapshot _).pending = []
    unfold getUnrepliedMessagesSnapshot
    rw [hs]
    decide
  · rw [hs]; decide
  · rw [hs]; decide

/-- C8 amended: after sorting by timestamp and splitting at the last
outgoing message, the pending snapshot consists of exactly the inbound
messages with non-empty extracted content strictly after the last
outgoing message, in timestamp order (every message after the split is
inbound, so the inbound filter keeps the whole suffix), the history
transcript covers the messages up to and including the last outgoing
message, and an empty pending set makes the manual respond endpoint
return a zero-reply, not-paused result with no model call and no
event. -/
theorem unreplied_snapshot_splits (msgs : List WMessage) :
    (∀ i, lastOutgoingIndex (sortByTimestamp msgs) = some i →
      (getUnrepliedMessagesSnapshot msgs).history =
          buildCleanChatlog ((sortByTimestamp msgs).take (i + 1)) ∧
        (∃ m, (sortByTimestamp msgs)[i]? = some m ∧ m.fromMe = true) ∧
        (∀ m ∈ (sortByTimestamp msgs).drop (i + 1), m.fromMe = false) ∧
        (getUnrepliedMessagesSnapshot msgs).pending =
          (((sortByTimestamp msgs).drop (i + 1)).map (fun m =>
            ({ content := getMessageContent m, messageId := m.id,
               hasMedia := m.hasMedia, mtype := m.mtype } : PendingItem))).filter
            (fun p => p.content != "") ∧
        ((sortByTimestamp msgs).drop (i + 1)).Pairwise (fun a b => tsLe a b = true)) ∧
    (lastOutgoingIndex (sortByTimestamp msgs) = none →
      (getUnrepliedMessagesSnapshot msgs).history = "" ∧
      (∀ m ∈ sortByTimestamp msgs, m.fromMe = false)) ∧
    (∀ (rowId : Nat) (chatId : String) (snap : Snapshot) (result : GeminiResult),
      snap.pending = [] →
      respondNow rowId chatId snap result =
        ({ responded := 0, paused := false, ack := none }, [])) := by
  refine ⟨?_, ?_, ?_⟩
  · intro i hi
    have haux : lastFromMeIdxAux (sortByTimestamp msgs) = some i := by
      rw [← lastOutgoingIndex_eq_aux]; exact hi
    obtain ⟨hlen, hat, hsuffix⟩ := lastFromMeIdxAux_some (sortByTimestamp msgs) i haux
    refine ⟨?_, hat, hsuffix, ?_, ?_⟩
    · unfold getUnrepliedMessagesSnapshot
      rw [hi]
    · unfold getUnrepliedMessagesSnapshot
      rw [hi]
      exact pendingFrom_all_inbound _ hsuffix
    · exact (pairwise_sortByTimestamp msgs).sublist (List.drop_sublist _ _)
  · intro hnone
    have haux : lastFromMeIdxAux (sortByTimestamp msgs) = none := by
      rw [← lastOutgoingIndex_eq_aux]; exact hnone
    constructor
    · unfold getUnrepliedMessagesSnapshot
      rw [hnone]
      rfl
    · exact lastFromMeIdxAux_none _ haux
  · intro rowId chatId snap result h
    simp [respondNow, h]

/-- C8 amended witness: a chat whose history holds an inbound call log
and an outgoing blank-body image message (rendered as them call-log and
me media lines), followed by two later inbound messages, splits into
exactly that history transcript and those two pending entries; the
endpoint conjunct applied to an empty snapshot yields the zero-reply
result. -/
theorem unreplied_snapshot_splits_witness :
    (getUnrepliedMessagesSnapshot
      [{ id := some "k", fromMe := false, body := "", hasMedia := false,
         mtype := "call_log", timestamp := 0 },
       { id := some "a", fromMe := true, body := "", hasMedia := false,
         mtype := "image", timestamp := 1 },
       { id := some "b", fromMe := false, body := "hi back", hasMedia := false,
         mtype := "chat", timestamp := 2 },
       { id := some "c", fromMe := false, body := "", hasMedia := true,
         mtype := "image", timestamp := 3 }]).history =
      "them: [call:log]\nme: [media:image]" ∧
    (getUnrepliedMessagesSnapshot
      [{ id := some "k", fromMe := false, body := "", hasMedia := false,
         mtype := "call_log", timestamp := 0 },
       { id := some "a", fromMe := true, body := "", hasMedia := false,
         mtype := "image", timestamp := 1 },
       { id := some "b", fromMe := false, body := "hi back", hasMedia := false,
         mtype := "chat", timestamp := 2 },
       { id := some "c", fromMe := false, body := "", hasMedia := true,
         mtype := "image", timestamp := 3 }]).pending =
      [{ content := "hi back", messageId := some "b", hasMedia := false,
         mtype := "chat" },
       { content := "User sent [media:image]", messageId := some "c",
         hasMedia := true, mtype := "image" }] ∧
    respondNow 4 "chat" { history := "me: hello", pending := [] } pausedResult =
      ({ responded := 0, paused := false, ack := none }, []) := by
  have hs : sortByTimestamp
      [{ id := some "k", fromMe := false, body := "", hasMedia := false,
         mtype := "call_log", timestamp := 0 },
       { id := some "a", fromMe := true, body := "", hasMedia := false,
         mtype := "image", timestamp := 1 },
       { id := some "b", fromMe := false, body := "hi back", hasMedia := false,
         mtype := "chat", timestamp := 2 },
       { id := some "c", fromMe := false, body := "", hasMedia := true,
         mtype := "image", timestamp := 3 }] =
      [{ id := some "k", fromMe := false, body := "", hasMedia := false,
         mtype := "call_log", timestamp := 0 },
       { id := some "a", fromMe := true, body := "", hasMedia := false,
         mtype := "image", timestamp := 1 },
       { id := some "b", fromMe := false, body := "hi back", hasMedia := false,
         mtype := "chat", timestamp := 2 },
       { id := some "c", fromMe := false, body := "", hasMedia := true,
         mtype := "image", timestamp := 3 }] :=
    List.mergeSort_of_sorted (by decide)
  have h := (unreplied_snapshot_splits
      [{ id := some "k", fromMe := false, body := "", hasMedia := false,
         mtype := "call_log", timestamp := 0 },
       { id := some "a", fromMe := true, body := "", hasMedia := false,
         mtype := "image", timestamp := 1 },
       { id := some "b", fromMe := false, body := "hi back", hasMedia := false,
         mtype := "chat", timestamp := 2 },
       { id := some "c", fromMe := false, body := "", hasMedia := true,
         mtype := "image", timestamp := 3 }]).1 1 (by rw [hs]; decide)
  refine ⟨?_, ?_, ?_⟩
  · rw [h.1, hs]
    decide
  · rw [h.2.2.2.1, hs]
    decide
  · exact (unreplied_snapshot_splits []).2.2 4 "chat"
      { history := "me: hello", pending := [] } pausedResult rfl

end WhatsappSalesman
